import Mathlib

/-!
Shallow embedding of the go-paramfetch fetch-and-verify orchestrator
(src/paramfetch.go) and proofs of the specification claims.

Files are modelled as lists of bytes (`Nat`, with `< 256` hypotheses where
byte-ness matters).  The blake2b-512 hash from the external
`minio/blake2b-simd` library is an explicit function parameter; its
interface contract (a 64-byte digest of byte values) appears as a
hypothesis where a claim depends on it.  The filesystem is a function from
paths to a file result; environment variables, the download gateway and
the deletion syscall are explicit parameters.
-/

/-- The default gateway constant from the source. -/
def gateway : String := "https://proofs.filecoin.io/ipfs/"

/-- Manifest entry, mirroring the Go struct `paramFile`
(`cid`, `digest`, `sector_size`). -/
structure paramFile where
  Cid : String
  Digest : String
  SectorSize : Nat
deriving DecidableEq

/-- Result of accessing a local file: its content, absence
(`os.IsNotExist`), or some other I/O failure. -/
inductive FileRes
  | ok (content : List Nat)
  | notExist
  | ioErr
deriving DecidableEq

/-- Outcome of `checkFile` when it returns a non-nil error. -/
inductive CheckErr
  | notExist
  | ioError
  | mismatch (strSum digest : String)
deriving DecidableEq

/-- Go's `hex` digit table "0123456789abcdef" used by
`hex.EncodeToString`. -/
def hexTable : List Char := "0123456789abcdef".data

/-- Hex encoding of one byte: high nibble then low nibble, as in Go's
`encoding/hex`. -/
def hexByte (b : Nat) : List Char :=
  [hexTable.getD (b / 16) 'x', hexTable.getD (b % 16) 'x']

/-- Model of `hex.EncodeToString` over a byte list. -/
def hexEncodeToString (bs : List Nat) : String :=
  String.mk ((bs.map hexByte).flatten)

/-- Go's `strings.HasSuffix s suf`: `len(s) >= len(suf)` and the last
`len(suf)` bytes of `s` equal `suf`. -/
def hasSuffix (s suf : String) : Bool :=
  decide (suf.data.length ≤ s.data.length) &&
    decide (s.data.drop (s.data.length - suf.data.length) = suf.data)

/-- Model of `filepath.Join(getParamDir(), name)`. -/
def joinPath (dir name : String) : String := dir ++ "/" ++ name

/-- Model of `(ft *fetch) checkFile(path, info)`.  Inputs: the `TRUST_PARAMS`
bypass flag, the blake2b-512 hash, the `checked` cache, the filesystem.
Returns the check result together with the cache after the call. -/
def checkFile (trustParams : Bool) (hash : List Nat → List Nat)
    (checked : List String) (fs : String → FileRes)
    (path : String) (info : paramFile) : Except CheckErr Unit × List String :=
  if trustParams then
    (Except.ok (), checked)
  else if path ∈ checked then
    (Except.ok (), checked)
  else
    match fs path with
    | FileRes.notExist => (Except.error CheckErr.notExist, checked)
    | FileRes.ioErr => (Except.error CheckErr.ioError, checked)
    | FileRes.ok content =>
      let sum := hash content
      let strSum := hexEncodeToString (sum.take 16)
      if strSum = info.Digest then
        (Except.ok (), path :: checked)
      else
        (Except.error (CheckErr.mismatch strSum info.Digest), checked)

/-- An HTTP GET request as issued by `doFetch`: target URL and the value
of the `Range` header. -/
structure HttpReq where
  url : String
  rangeHeader : String
deriving DecidableEq

/-- The request/response part of `doFetch` once the local file is open
with current content `cur`: build the URL and Range header, issue the
single GET, and on success append the body to the existing bytes.
Returns the requests issued and the resulting file content (or an
error). -/
def doFetchReq (gw : String) (server : HttpReq → Except Unit (List Nat))
    (cur : List Nat) (info : paramFile) :
    List HttpReq × Except Unit (List Nat) :=
  let req : HttpReq :=
    ⟨gw ++ info.Cid, "bytes=" ++ toString cur.length ++ "-"⟩
  match server req with
  | Except.error _ => ([req], Except.error ())
  | Except.ok body => ([req], Except.ok (cur ++ body))

/-- Model of `doFetch(ctx, out, info)`.  Resolves the gateway from the
`IPFS_GATEWAY` environment value (`""` meaning unset), opens the output
file in append/create mode (absence yields empty current content, any
other I/O failure aborts before a request is made), and delegates to
`doFetchReq`. -/
def doFetch (gwEnv : String) (server : HttpReq → Except Unit (List Nat))
    (old : FileRes) (info : paramFile) :
    List HttpReq × Except Unit (List Nat) :=
  let gw := if gwEnv = "" then gateway else gwEnv
  match old with
  | FileRes.ioErr => ([], Except.error ())
  | FileRes.notExist => doFetchReq gw server [] info
  | FileRes.ok c => doFetchReq gw server c info

/-- A per-task aggregated error, one constructor per `xerrors.Errorf`
format in `maybeFetchAsync`:
"fetching file %s failed", "checking file %s failed",
"remove file %s failed". -/
inductive TaskErr
  | fetching (path : String)
  | checking (path : String)
  | removing (path : String)
deriving DecidableEq

/-- The ambient environment of a reconciliation call: the `TRUST_PARAMS`
flag, the hash function, the `IPFS_GATEWAY` value, the remote server and
the outcome of `os.Remove` per path. -/
structure TaskEnv where
  trustParams : Bool
  hash : List Nat → List Nat
  gwEnv : String
  server : HttpReq → Except Unit (List Nat)
  removeOk : String → Bool

/-- Shared mutable state: the `checked` cache and the filesystem. -/
structure St where
  checked : List String
  fs : String → FileRes

/-- Pointwise update of the filesystem at one path. -/
def updateFs (fs : String → FileRes) (p : String) (v : FileRes) :
    String → FileRes :=
  fun q => if q = p then v else fs q

/-- Observable outcome of one per-entry task: the state afterwards, the
errors appended to `ft.errs`, the HTTP requests issued, how many times
`doFetch` was invoked, whether the download gate `fetchLk` was acquired,
and the check errors passed to `log.Warn`. -/
structure TaskOut where
  st : St
  errs : List TaskErr
  reqs : List HttpReq
  fetchCalls : Nat
  lockTaken : Bool
  logged : List CheckErr

/-- The body of the goroutine spawned by `maybeFetchAsync` for one entry,
as a sequential function of the shared state. -/
def fetchTask (env : TaskEnv) (st : St) (path : String) (info : paramFile) :
    TaskOut :=
  let c1 := checkFile env.trustParams env.hash st.checked st.fs path info
  match c1.1 with
  | Except.ok _ => ⟨⟨c1.2, st.fs⟩, [], [], 0, false, []⟩
  | Except.error e =>
    let logged := if e = CheckErr.notExist then [] else [e]
    let f := doFetch env.gwEnv env.server (st.fs path) info
    match f.2 with
    | Except.error _ =>
      ⟨⟨c1.2, st.fs⟩, [TaskErr.fetching path], f.1, 1, true, logged⟩
    | Except.ok content =>
      let fs2 := updateFs st.fs path (FileRes.ok content)
      let c2 := checkFile env.trustParams env.hash c1.2 fs2 path info
      match c2.1 with
      | Except.ok _ => ⟨⟨c2.2, fs2⟩, [], f.1, 1, true, logged⟩
      | Except.error _ =>
        if env.removeOk path then
          ⟨⟨c2.2, updateFs fs2 path FileRes.notExist⟩,
            [TaskErr.checking path], f.1, 1, true, logged⟩
        else
          ⟨⟨c2.2, fs2⟩,
            [TaskErr.checking path, TaskErr.removing path], f.1, 1, true, logged⟩

/-- The entry loop of `GetParams`: skip an entry when
`storageSize != info.SectorSize && strings.HasSuffix(name, ".params")`,
otherwise run its task; collect states, errors and requests.  (The Go
tasks run concurrently; here they are sequenced in manifest order, which
is faithful for the per-entry claims.) -/
def getParamsLoop (env : TaskEnv) (dir : String) (storageSize : Nat) :
    List (String × paramFile) → St → St × List TaskErr × List HttpReq
  | [], st => (st, [], [])
  | (name, info) :: rest, st =>
    if storageSize ≠ info.SectorSize ∧ hasSuffix name ".params" = true then
      getParamsLoop env dir storageSize rest st
    else
      let out := fetchTask env st (joinPath dir name) info
      let r := getParamsLoop env dir storageSize rest out.st
      (r.1, out.errs ++ r.2.1, out.reqs ++ r.2.2)

/-!
Interleaving model of the download gate (`fetchLk`), for the concurrency
claim.  Each spawned goroutine is a task that first verifies; on failure
it waits for the single global mutex, downloads while holding it, and
releases it.  `GateStep` is the atomic-step relation; the mutex is the
`lock` field holding the index of the task inside the gated phase.
-/

/-- Phase of one per-entry goroutine with respect to the download gate. -/
inductive Phase
  | running
  | waiting
  | downloading
  | done
deriving DecidableEq

/-- Pointwise update of a phase assignment. -/
def updPhase (f : Nat → Phase) (i : Nat) (p : Phase) : Nat → Phase :=
  fun j => if j = i then p else f j

/-- Global state of a reconciliation call: the phase of every task and
the holder of the download mutex (`none` when free). -/
structure GateState where
  phases : Nat → Phase
  lock : Option Nat

/-- Atomic steps: a running task finishes on successful verification or
starts waiting for the gate; a waiting task acquires the free mutex and
enters the download phase; a downloading task finishes and releases. -/
inductive GateStep : GateState → GateState → Prop
  | verifyOk (s : GateState) (i : Nat) (h : s.phases i = Phase.running) :
      GateStep s ⟨updPhase s.phases i Phase.done, s.lock⟩
  | verifyFail (s : GateState) (i : Nat) (h : s.phases i = Phase.running) :
      GateStep s ⟨updPhase s.phases i Phase.waiting, s.lock⟩
  | acquire (s : GateState) (i : Nat) (h : s.phases i = Phase.waiting)
      (hl : s.lock = none) :
      GateStep s ⟨updPhase s.phases i Phase.downloading, some i⟩
  | release (s : GateState) (i : Nat) (h : s.phases i = Phase.downloading) :
      GateStep s ⟨updPhase s.phases i Phase.done, none⟩

/-- Initial state for a manifest of `n` in-scope entries: tasks
`0..n-1` running, the mutex free. -/
def gateInit (n : Nat) : GateState :=
  ⟨fun i => if i < n then Phase.running else Phase.done, none⟩

/-- States reachable from the initial state by atomic steps. -/
inductive GateReachable (n : Nat) : GateState → Prop
  | refl : GateReachable n (gateInit n)
  | step {s t : GateState} :
      GateReachable n s → GateStep s t → GateReachable n t

/-- Gate invariant: a task inside the download phase holds the mutex. -/
def GateInv (s : GateState) : Prop :=
  ∀ i, s.phases i = Phase.downloading → s.lock = some i

lemma gateInv_init (n : Nat) : GateInv (gateInit n) := by
  intro i h
  simp only [gateInit] at h
  split at h <;> cases h

lemma gateInv_step {s t : GateState} (hs : GateInv s) (hst : GateStep s t) :
    GateInv t := by
  cases hst with
  | verifyOk i h =>
    intro j hj
    simp only [updPhase] at hj
    split at hj
    · cases hj
    · exact hs j hj
  | verifyFail i h =>
    intro j hj
    simp only [updPhase] at hj
    split at hj
    · cases hj
    · exact hs j hj
  | acquire i h hl =>
    intro j hj
    simp only [updPhase] at hj
    split at hj
    · simp_all
    · exact absurd (hs j hj) (by simp [hl])
  | release i h =>
    intro j hj
    simp only [updPhase] at hj
    split at hj
    · cases hj
    · have hi := hs i h
      have hjl := hs j hj
      rw [hi] at hjl
      simp_all [updPhase]

lemma gateInv_reachable {n : Nat} {s : GateState}
    (h : GateReachable n s) : GateInv s := by
  induction h with
  | refl => exact gateInv_init n
  | step _ hst ih => exact gateInv_step ih hst

/-! Helper lemmas. -/

lemma checkFile_error_cache {tp : Bool} {hash : List Nat → List Nat}
    {checked : List String} {fs : String → FileRes} {path : String}
    {info : paramFile} {e : CheckErr}
    (h : (checkFile tp hash checked fs path info).1 = Except.error e) :
    (checkFile tp hash checked fs path info).2 = checked := by
  cases tp with
  | true => simp [checkFile] at h
  | false =>
    by_cases hm : path ∈ checked
    · simp [checkFile, hm] at h
    · cases hfs : fs path with
      | ok content =>
        by_cases he : hexEncodeToString ((hash content).take 16) = info.Digest
        · simp [checkFile, hm, hfs, he] at h
        · simp [checkFile, hm, hfs, he]
      | notExist => simp [checkFile, hm, hfs]
      | ioErr => simp [checkFile, hm, hfs]

lemma hexEncodeToString_length (bs : List Nat) :
    (hexEncodeToString bs).length = 2 * bs.length := by
  induction bs with
  | nil => rfl
  | cons b tl ih =>
    simp only [hexEncodeToString, String.length] at ih ⊢
    simp only [List.map_cons, List.flatten_cons, List.length_append,
      List.length_cons, hexByte, ih, List.length_nil]
    omega

lemma hexTable_getD_mem (n : Nat) (h : n < 16) :
    hexTable.getD n 'x' ∈ hexTable := by
  interval_cases n <;> decide

lemma hexTable_not_upper : ∀ c ∈ hexTable, c.isUpper = false := by decide

lemma hexEncodeToString_mem (bs : List Nat) (hb : ∀ b ∈ bs, b < 256) :
    ∀ c ∈ (hexEncodeToString bs).data, c ∈ hexTable := by
  intro c hc
  simp only [hexEncodeToString] at hc
  rw [List.mem_flatten] at hc
  obtain ⟨l, hl, hcl⟩ := hc
  rw [List.mem_map] at hl
  obtain ⟨b, hbs, rfl⟩ := hl
  have hb256 := hb b hbs
  have hdiv : b / 16 < 16 := by omega
  have hmod : b % 16 < 16 := Nat.mod_lt _ (by omega)
  simp only [hexByte, List.mem_cons, List.mem_singleton] at hcl
  rcases hcl with rfl | rfl | h
  · exact hexTable_getD_mem _ hdiv
  · exact hexTable_getD_mem _ hmod
  · cases h

/-- Claim C1: when `Verify` takes the hashing path (trust bypass disabled
and the path not in the cache, with the file readable), it hashes the full
content with the 512-bit hash, truncates the digest to its first 16 bytes,
hex-encodes, and returns ok exactly when that string is (case-sensitively)
equal to the entry's digest field. -/
theorem checkFile_hashing_path (hash : List Nat → List Nat)
    (checked : List String) (fs : String → FileRes) (path : String)
    (info : paramFile) (content : List Nat)
    (hnc : path ∉ checked) (hfs : fs path = FileRes.ok content) :
    (checkFile false hash checked fs path info).1 = Except.ok () ↔
      hexEncodeToString ((hash content).take 16) = info.Digest := by
  by_cases he : hexEncodeToString ((hash content).take 16) = info.Digest
  · simp [checkFile, hnc, hfs, he]
  · simp [checkFile, hnc, hfs, he]

theorem checkFile_hashing_path_witness :
    (checkFile false (fun _ => List.replicate 64 0) []
        (fun _ => FileRes.ok []) "p"
        ⟨"c", "00000000000000000000000000000000", 0⟩).1 = Except.ok () ↔
      hexEncodeToString (((fun _ => List.replicate 64 0)
          ([] : List Nat)).take 16) = "00000000000000000000000000000000" :=
  checkFile_hashing_path (fun _ => List.replicate 64 0) []
    (fun _ => FileRes.ok []) "p" ⟨"c", "00000000000000000000000000000000", 0⟩
    [] (by simp) rfl

/-- Claim C9: `checkFile` mutates the cache only by inserting the checked
path, and only on a successful digest match; every error outcome
(mismatch, I/O failure, absence) leaves the cache exactly as it was. -/
theorem checkFile_cache_only_insert_on_match (tp : Bool)
    (hash : List Nat → List Nat) (checked : List String)
    (fs : String → FileRes) (path : String) (info : paramFile) :
    ((checkFile tp hash checked fs path info).1 = Except.ok () →
      (checkFile tp hash checked fs path info).2 = checked ∨
        (checkFile tp hash checked fs path info).2 = path :: checked) ∧
    (∀ e, (checkFile tp hash checked fs path info).1 = Except.error e →
      (checkFile tp hash checked fs path info).2 = checked) := by
  constructor
  · intro h
    cases tp with
    | true => left; simp [checkFile]
    | false =>
      by_cases hm : path ∈ checked
      · left; simp [checkFile, hm]
      · cases hfs : fs path with
        | ok content =>
          by_cases he : hexEncodeToString ((hash content).take 16) = info.Digest
          · right; simp [checkFile, hm, hfs, he]
          · simp [checkFile, hm, hfs, he] at h
        | notExist => simp [checkFile, hm, hfs] at h
        | ioErr => simp [checkFile, hm, hfs] at h
  · intro e h
    exact checkFile_error_cache h

theorem checkFile_cache_only_insert_on_match_witness :
    (checkFile false (fun _ => List.replicate 64 0) []
        (fun _ => FileRes.ioErr) "p" ⟨"c", "d", 0⟩).2 = [] :=
  (checkFile_cache_only_insert_on_match false (fun _ => List.replicate 64 0)
    [] (fun _ => FileRes.ioErr) "p" ⟨"c", "d", 0⟩).2 CheckErr.ioError rfl

/-- Claim C10: on the hashing path, given the hash's interface contract
(64-byte digest of byte values), the computed comparison string has
exactly 32 characters, all drawn from the lowercase hex table; hence an
entry whose digest field has a different length or contains an uppercase
letter always produces a checksum-mismatch error. -/
theorem checkFile_digest_shape (hash : List Nat → List Nat)
    (checked : List String) (fs : String → FileRes) (path : String)
    (info : paramFile) (content : List Nat)
    (hnc : path ∉ checked) (hfs : fs path = FileRes.ok content)
    (hlen : (hash content).length = 64)
    (hbytes : ∀ b ∈ hash content, b < 256) :
    (hexEncodeToString ((hash content).take 16)).length = 32 ∧
    (∀ c ∈ (hexEncodeToString ((hash content).take 16)).data,
      c ∈ hexTable ∧ c.isUpper = false) ∧
    ((info.Digest.length ≠ 32 ∨ (∃ c ∈ info.Digest.data, c.isUpper = true)) →
      (checkFile false hash checked fs path info).1 =
        Except.error (CheckErr.mismatch
          (hexEncodeToString ((hash content).take 16)) info.Digest)) := by
  have htake : ((hash content).take 16).length = 16 := by
    rw [List.length_take, hlen]
    decide
  have hlen32 : (hexEncodeToString ((hash content).take 16)).length = 32 := by
    rw [hexEncodeToString_length, htake]
  have hmem : ∀ c ∈ (hexEncodeToString ((hash content).take 16)).data,
      c ∈ hexTable :=
    hexEncodeToString_mem _ (fun b hb => hbytes b (List.take_subset 16 _ hb))
  refine ⟨hlen32, fun c hc => ⟨hmem c hc, hexTable_not_upper c (hmem c hc)⟩, ?_⟩
  intro hbad
  have hne : hexEncodeToString ((hash content).take 16) ≠ info.Digest := by
    intro heq
    rcases hbad with hl | ⟨c, hc, hu⟩
    · rw [← heq] at hl
      exact hl hlen32
    · have hcs : c ∈ (hexEncodeToString ((hash content).take 16)).data := by
        rw [heq]; exact hc
      have := hexTable_not_upper c (hmem c hcs)
      rw [hu] at this
      cases this
  simp [checkFile, hnc, hfs, hne]

theorem checkFile_digest_shape_witness :
    (hexEncodeToString (((fun _ => List.replicate 64 0)
        ([] : List Nat)).take 16)).length = 32 ∧
    (∀ c ∈ (hexEncodeToString (((fun _ => List.replicate 64 0)
        ([] : List Nat)).take 16)).data, c ∈ hexTable ∧ c.isUpper = false) ∧
    ((("XY" : String).length ≠ 32 ∨ (∃ c ∈ ("XY" : String).data, c.isUpper = true)) →
      (checkFile false (fun _ => List.replicate 64 0) []
          (fun _ => FileRes.ok []) "p" ⟨"c", "XY", 0⟩).1 =
        Except.error (CheckErr.mismatch
          (hexEncodeToString (((fun _ => List.replicate 64 0)
            ([] : List Nat)).take 16)) "XY")) :=
  checkFile_digest_shape (fun _ => List.replicate 64 0) []
    (fun _ => FileRes.ok []) "p" ⟨"c", "XY", 0⟩ [] (by simp) rfl
    (by decide) (by decide)

/-- Claim C3: when the pre-download check of the existing file returns
ok (via digest match, the cache, or the trust bypass), the task ends
successfully: no HTTP request, no `doFetch` invocation, no download-gate
acquisition, and no recorded error. -/
theorem fetchTask_verified_no_network (env : TaskEnv) (st : St)
    (path : String) (info : paramFile)
    (h : (checkFile env.trustParams env.hash st.checked st.fs path info).1 =
      Except.ok ()) :
    (fetchTask env st path info).reqs = [] ∧
    (fetchTask env st path info).fetchCalls = 0 ∧
    (fetchTask env st path info).lockTaken = false ∧
    (fetchTask env st path info).errs = [] := by
  simp only [fetchTask]
  rw [h]
  exact ⟨rfl, rfl, rfl, rfl⟩

theorem fetchTask_verified_no_network_witness :
    (fetchTask ⟨true, fun _ => [], "", fun _ => Except.error (), fun _ => true⟩
        ⟨[], fun _ => FileRes.notExist⟩ "p" ⟨"c", "d", 0⟩).reqs = [] ∧
    (fetchTask ⟨true, fun _ => [], "", fun _ => Except.error (), fun _ => true⟩
        ⟨[], fun _ => FileRes.notExist⟩ "p" ⟨"c", "d", 0⟩).fetchCalls = 0 ∧
    (fetchTask ⟨true, fun _ => [], "", fun _ => Except.error (), fun _ => true⟩
        ⟨[], fun _ => FileRes.notExist⟩ "p" ⟨"c", "d", 0⟩).lockTaken = false ∧
    (fetchTask ⟨true, fun _ => [], "", fun _ => Except.error (), fun _ => true⟩
        ⟨[], fun _ => FileRes.notExist⟩ "p" ⟨"c", "d", 0⟩).errs = [] :=
  fetchTask_verified_no_network
    ⟨true, fun _ => [], "", fun _ => Except.error (), fun _ => true⟩
    ⟨[], fun _ => FileRes.notExist⟩ "p" ⟨"c", "d", 0⟩ rfl

/-- Claim C4: when the freshly downloaded file still fails verification,
the task records a checking-failed error for the path, then attempts the
deletion; a deletion failure appends a second, remove-failed error — one
or two errors in total. -/
theorem fetchTask_post_check_failure_errors (env : TaskEnv) (st : St)
    (path : String) (info : paramFile) (e1 : CheckErr) (content : List Nat)
    (e2 : CheckErr)
    (h1 : (checkFile env.trustParams env.hash st.checked st.fs path info).1 =
      Except.error e1)
    (h2 : (doFetch env.gwEnv env.server (st.fs path) info).2 =
      Except.ok content)
    (h3 : (checkFile env.trustParams env.hash st.checked
        (updateFs st.fs path (FileRes.ok content)) path info).1 =
      Except.error e2) :
    (fetchTask env st path info).errs =
      (if env.removeOk path then [TaskErr.checking path]
       else [TaskErr.checking path, TaskErr.removing path]) ∧
    ((fetchTask env st path info).errs = [TaskErr.checking path] ∨
      (fetchTask env st path info).errs =
        [TaskErr.checking path, TaskErr.removing path]) := by
  have hc : (checkFile env.trustParams env.hash st.checked st.fs path info).2 =
      st.checked := checkFile_error_cache h1
  simp only [fetchTask, h1, hc, h2, h3]
  by_cases hr : env.removeOk path
  · simp [hr]
  · simp [hr]

theorem fetchTask_post_check_failure_errors_witness :
    (fetchTask ⟨false, fun _ => List.replicate 64 0, "",
        fun _ => Except.ok [], fun _ => true⟩
        ⟨[], fun _ => FileRes.notExist⟩ "p" ⟨"c", "x", 0⟩).errs =
      (if (fun (_ : String) => true) "p" then [TaskErr.checking "p"]
       else [TaskErr.checking "p", TaskErr.removing "p"]) ∧
    ((fetchTask ⟨false, fun _ => List.replicate 64 0, "",
        fun _ => Except.ok [], fun _ => true⟩
        ⟨[], fun _ => FileRes.notExist⟩ "p" ⟨"c", "x", 0⟩).errs =
      [TaskErr.checking "p"] ∨
      (fetchTask ⟨false, fun _ => List.replicate 64 0, "",
        fun _ => Except.ok [], fun _ => true⟩
        ⟨[], fun _ => FileRes.notExist⟩ "p" ⟨"c", "x", 0⟩).errs =
      [TaskErr.checking "p", TaskErr.removing "p"]) :=
  fetchTask_post_check_failure_errors
    ⟨false, fun _ => List.replicate 64 0, "", fun _ => Except.ok [],
      fun _ => true⟩
    ⟨[], fun _ => FileRes.notExist⟩ "p" ⟨"c", "x", 0⟩
    CheckErr.notExist []
    (CheckErr.mismatch "00000000000000000000000000000000" "x")
    rfl rfl rfl

lemma doFetchReq_requests (gw : String)
    (server : HttpReq → Except Unit (List Nat)) (cur : List Nat)
    (info : paramFile) :
    (doFetchReq gw server cur info).1 =
      [⟨gw ++ info.Cid, "bytes=" ++ toString cur.length ++ "-"⟩] := by
  simp only [doFetchReq]
  split <;> rfl

lemma doFetch_requests_le_one (gwEnv : String)
    (server : HttpReq → Except Unit (List Nat)) (old : FileRes)
    (info : paramFile) : (doFetch gwEnv server old info).1.length ≤ 1 := by
  cases old <;> simp [doFetch, doFetchReq_requests]

/-- Claim C5: when the download attempt fails, `doFetch` is invoked
exactly once (no retry), at most one HTTP request was issued, a single
fetching-failed error for the path is recorded, and the task stops with
the cache and the filesystem untouched. -/
theorem fetchTask_fetch_failure_single_error (env : TaskEnv) (st : St)
    (path : String) (info : paramFile) (e1 : CheckErr)
    (h1 : (checkFile env.trustParams env.hash st.checked st.fs path info).1 =
      Except.error e1)
    (h2 : (doFetch env.gwEnv env.server (st.fs path) info).2 =
      Except.error ()) :
    (fetchTask env st path info).errs = [TaskErr.fetching path] ∧
    (fetchTask env st path info).fetchCalls = 1 ∧
    (fetchTask env st path info).reqs.length ≤ 1 ∧
    (fetchTask env st path info).st.checked = st.checked ∧
    (fetchTask env st path info).st.fs = st.fs := by
  have hc : (checkFile env.trustParams env.hash st.checked st.fs path info).2 =
      st.checked := checkFile_error_cache h1
  simp only [fetchTask, h1, hc, h2]
  simp [doFetch_requests_le_one]

theorem fetchTask_fetch_failure_single_error_witness :
    (fetchTask ⟨false, fun _ => [], "", fun _ => Except.error (),
        fun _ => true⟩ ⟨[], fun _ => FileRes.notExist⟩ "p"
        ⟨"c", "d", 0⟩).errs = [TaskErr.fetching "p"] ∧
    (fetchTask ⟨false, fun _ => [], "", fun _ => Except.error (),
        fun _ => true⟩ ⟨[], fun _ => FileRes.notExist⟩ "p"
        ⟨"c", "d", 0⟩).fetchCalls = 1 ∧
    (fetchTask ⟨false, fun _ => [], "", fun _ => Except.error (),
        fun _ => true⟩ ⟨[], fun _ => FileRes.notExist⟩ "p"
        ⟨"c", "d", 0⟩).reqs.length ≤ 1 ∧
    (fetchTask ⟨false, fun _ => [], "", fun _ => Except.error (),
        fun _ => true⟩ ⟨[], fun _ => FileRes.notExist⟩ "p"
        ⟨"c", "d", 0⟩).st.checked = [] ∧
    (fetchTask ⟨false, fun _ => [], "", fun _ => Except.error (),
        fun _ => true⟩ ⟨[], fun _ => FileRes.notExist⟩ "p"
        ⟨"c", "d", 0⟩).st.fs = (fun _ => FileRes.notExist) :=
  fetchTask_fetch_failure_single_error
    ⟨false, fun _ => [], "", fun _ => Except.error (), fun _ => true⟩
    ⟨[], fun _ => FileRes.notExist⟩ "p" ⟨"c", "d", 0⟩ CheckErr.notExist
    rfl rfl

/-- Claim C6: a pre-download check failure is never surfaced as a task
error at that point: a non-absence failure is logged and the task still
enters the download phase; an absence failure enters the download phase
silently, with nothing logged. -/
theorem fetchTask_precheck_failure_swallowed (env : TaskEnv) (st : St)
    (path : String) (info : paramFile) (e : CheckErr)
    (h1 : (checkFile env.trustParams env.hash st.checked st.fs path info).1 =
      Except.error e) :
    (fetchTask env st path info).lockTaken = true ∧
    (e ≠ CheckErr.notExist → (fetchTask env st path info).logged = [e]) ∧
    (e = CheckErr.notExist → (fetchTask env st path info).logged = []) := by
  simp only [fetchTask, h1]
  cases hf : (doFetch env.gwEnv env.server (st.fs path) info).2 with
  | error u =>
    by_cases he : e = CheckErr.notExist <;> simp [he]
  | ok content =>
    cases hc2 : (checkFile env.trustParams env.hash
        (checkFile env.trustParams env.hash st.checked st.fs path info).2
        (updateFs st.fs path (FileRes.ok content)) path info).1 with
    | ok u =>
      by_cases he : e = CheckErr.notExist <;> simp [he, hc2]
    | error e2 =>
      by_cases hr : env.removeOk path <;>
        by_cases he : e = CheckErr.notExist <;> simp [hr, he, hc2]

theorem fetchTask_precheck_failure_swallowed_witness :
    (fetchTask ⟨false, fun _ => [], "", fun _ => Except.error (),
        fun _ => true⟩ ⟨[], fun _ => FileRes.ioErr⟩ "p"
        ⟨"c", "d", 0⟩).lockTaken = true ∧
    (fetchTask ⟨false, fun _ => [], "", fun _ => Except.error (),
        fun _ => true⟩ ⟨[], fun _ => FileRes.ioErr⟩ "p"
        ⟨"c", "d", 0⟩).logged = [CheckErr.ioError] :=
  ⟨(fetchTask_precheck_failure_swallowed
      ⟨false, fun _ => [], "", fun _ => Except.error (), fun _ => true⟩
      ⟨[], fun _ => FileRes.ioErr⟩ "p" ⟨"c", "d", 0⟩ CheckErr.ioError rfl).1,
    (fetchTask_precheck_failure_swallowed
      ⟨false, fun _ => [], "", fun _ => Except.error (), fun _ => true⟩
      ⟨[], fun _ => FileRes.ioErr⟩ "p" ⟨"c", "d", 0⟩
      CheckErr.ioError rfl).2.1 (by decide)⟩

lemma doFetchReq_append (gw : String)
    (server : HttpReq → Except Unit (List Nat)) (cur : List Nat)
    (info : paramFile) (body : List Nat)
    (h : server ⟨gw ++ info.Cid, "bytes=" ++ toString cur.length ++ "-"⟩ =
      Except.ok body) :
    (doFetchReq gw server cur info).2 = Except.ok (cur ++ body) := by
  simp only [doFetchReq, h]

/-- Claim C7: when the local file opens (existing partial content `cur`,
or created empty when absent), `doFetch` issues exactly one GET request
for the gateway address concatenated with the entry's cid, with Range
header "bytes=S-" where S is the size of the partial content, and on
success the new file content is the old bytes followed by the response
body — a true append. -/
theorem doFetch_single_range_request_append (gwEnv : String)
    (server : HttpReq → Except Unit (List Nat)) (old : FileRes)
    (info : paramFile) (cur : List Nat)
    (hold : old = FileRes.ok cur ∨ (old = FileRes.notExist ∧ cur = [])) :
    (doFetch gwEnv server old info).1 =
      [⟨(if gwEnv = "" then gateway else gwEnv) ++ info.Cid,
        "bytes=" ++ toString cur.length ++ "-"⟩] ∧
    (∀ body,
      server ⟨(if gwEnv = "" then gateway else gwEnv) ++ info.Cid,
        "bytes=" ++ toString cur.length ++ "-"⟩ = Except.ok body →
      (doFetch gwEnv server old info).2 = Except.ok (cur ++ body)) := by
  rcases hold with rfl | ⟨rfl, rfl⟩
  · exact ⟨doFetchReq_requests _ _ _ _,
      fun body hb => doFetchReq_append _ _ _ _ _ hb⟩
  · exact ⟨doFetchReq_requests _ _ _ _,
      fun body hb => doFetchReq_append _ _ _ _ _ hb⟩

theorem doFetch_single_range_request_append_witness :
    (doFetch "" (fun _ => (Except.ok [7] : Except Unit (List Nat)))
        (FileRes.ok [1, 2]) ⟨"c", "d", 0⟩).1 =
      [⟨(if ("" : String) = "" then gateway else "") ++ "c",
        "bytes=" ++ toString ([1, 2] : List Nat).length ++ "-"⟩] ∧
    (∀ body : List Nat,
      (Except.ok [7] : Except Unit (List Nat)) = Except.ok body →
      (doFetch "" (fun _ => (Except.ok [7] : Except Unit (List Nat)))
        (FileRes.ok [1, 2]) ⟨"c", "d", 0⟩).2 = Except.ok ([1, 2] ++ body)) :=
  doFetch_single_range_request_append "" (fun _ => Except.ok [7])
    (FileRes.ok [1, 2]) ⟨"c", "d", 0⟩ [1, 2] (Or.inl rfl)

/-- Claim C2: an entry whose name has the ".params" suffix and whose
sector size differs from the requested size is skipped entirely — the
loop's outcome is as if the entry were absent (no check, no request, no
error); an entry whose name lacks the suffix is always processed,
whatever its sector size. -/
theorem getParams_suffix_filter (env : TaskEnv) (dir : String)
    (storageSize : Nat) (name : String) (info : paramFile)
    (rest : List (String × paramFile)) (st : St) :
    (hasSuffix name ".params" = true → info.SectorSize ≠ storageSize →
      getParamsLoop env dir storageSize ((name, info) :: rest) st =
        getParamsLoop env dir storageSize rest st) ∧
    (hasSuffix name ".params" = false →
      getParamsLoop env dir storageSize ((name, info) :: rest) st =
        ((getParamsLoop env dir storageSize rest
            (fetchTask env st (joinPath dir name) info).st).1,
          (fetchTask env st (joinPath dir name) info).errs ++
            (getParamsLoop env dir storageSize rest
              (fetchTask env st (joinPath dir name) info).st).2.1,
          (fetchTask env st (joinPath dir name) info).reqs ++
            (getParamsLoop env dir storageSize rest
              (fetchTask env st (joinPath dir name) info).st).2.2)) := by
  constructor
  · intro hs hne
    simp only [getParamsLoop]
    rw [if_pos ⟨Ne.symm hne, hs⟩]
  · intro hs
    simp only [getParamsLoop]
    rw [if_neg (by simp [hs])]

theorem getParams_suffix_filter_witness :
    getParamsLoop
        ⟨false, fun _ => [], "", fun _ => Except.error (), fun _ => true⟩
        "d" 4096 [("b.params", ⟨"c", "x", 2048⟩)]
        ⟨[], fun _ => FileRes.notExist⟩ =
      getParamsLoop
        ⟨false, fun _ => [], "", fun _ => Except.error (), fun _ => true⟩
        "d" 4096 [] ⟨[], fun _ => FileRes.notExist⟩ :=
  (getParams_suffix_filter
    ⟨false, fun _ => [], "", fun _ => Except.error (), fun _ => true⟩
    "d" 4096 "b.params" ⟨"c", "x", 2048⟩ []
    ⟨[], fun _ => FileRes.notExist⟩).1 (by decide) (by decide)

/-- Claim C8: in the interleaving model of the reconciliation call, any
two tasks simultaneously inside the download phase are the same task: the
single global gate admits at most one in-flight transfer at any instant,
whatever the number of entries. -/
theorem download_gate_serializes (n : Nat) (s : GateState)
    (hr : GateReachable n s) (i j : Nat)
    (hi : s.phases i = Phase.downloading)
    (hj : s.phases j = Phase.downloading) : i = j := by
  have hInv := gateInv_reachable hr
  have h1 := hInv i hi
  have h2 := hInv j hj
  rw [h1] at h2
  exact Option.some.inj h2

theorem download_gate_serializes_witness : (0 : Nat) = 0 :=
  download_gate_serializes 1 _
    (GateReachable.step
      (GateReachable.step GateReachable.refl
        (GateStep.verifyFail (gateInit 1) 0 rfl))
      (GateStep.acquire _ 0 rfl rfl))
    0 0 rfl rfl
